import Mathlib

/-!
Verification development for the state-graph construction and compilation
engine of the Step Functions `State` base class (`aws-stepfunctions/lib/states/state.ts`).

The TypeScript object graph is shallowly embedded as a `World`: a list of
state records addressed by index together with a list of graph records
addressed by index.  Object references (`State`, `StateGraph`) become
indices; mutation becomes functional update of the `World`; thrown
`UnscopedValidationError`s become `Except SfnError`; the recursive
`bindToGraph` propagation is given an explicit fuel argument (the source
terminates because each recursive call happens only on a state that was
just bound, so any fuel larger than the recursion depth gives the same
result; every theorem about `bindToGraph` quantifies over the fuel).
-/

/-- The query languages (dialects) of `QueryLanguage` in `types.ts`:
the path-based dialect (JSONPath, the default) and the expression-based
dialect (JSONata). -/
inductive QueryLanguage where
  | JSON_PATH
  | JSONATA
deriving DecidableEq, Repr

/-- Modelled from the spec: the wildcard "match any error" matcher
`Errors.ALL` of `types.ts` (the file itself is outside the sources);
its concrete value is the Amazon States Language wildcard string. -/
def Errors.ALL : String := "States.ALL"

/-- `RetryProps`: an error-matcher set plus opaque backoff parameters.
The numeric backoff parameters are carried opaquely (no arithmetic is
performed on them here); `interval`/`maxDelay` stand for the durations
already converted to seconds. -/
structure RetryProps where
  errors : Option (List String)
  interval : Option Nat
  maxAttempts : Option Nat
  backoffRate : Option Nat
  maxDelay : Option Nat
  jitterStrategy : Option String
deriving DecidableEq, Repr

/-- `CatchProps`: error-matcher set and the per-catch options.  The
`outputs` and `assign` payloads are opaque (`any` in the source) and are
modelled as strings. -/
structure CatchProps where
  errors : Option (List String)
  resultPath : Option String
  outputs : Option String
  assign : Option String
deriving DecidableEq, Repr

/-- A choice transition: target state index, the opaque renderable
condition, and the per-transition options. -/
structure ChoiceTransition where
  next : Nat
  condition : String
  comment : Option String
  outputs : Option String
  assign : Option String
deriving DecidableEq, Repr

/-- A catch transition: target state index plus `CatchProps`. -/
structure CatchTransition where
  next : Nat
  props : CatchProps
deriving DecidableEq, Repr

/-- The per-state mutable record of the `State` base class.  Object
references to other states and to graphs are indices into the `World`. -/
structure StateData where
  id : String
  stateName : Option String
  prefixes : List String
  queryLanguage : Option QueryLanguage
  comment : Option String
  inputPath : Option String
  outputPath : Option String
  resultPath : Option String
  next : Option Nat
  defaultChoice : Option Nat
  choices : List ChoiceTransition
  catches : List CatchTransition
  retries : List RetryProps
  incomingStates : List Nat
  branches : List Nat
  iteration : Option Nat
  processor : Option Nat
  containingGraph : Option Nat
deriving DecidableEq, Repr

/-- A fresh state with the given construct id and no configuration. -/
def mkState (id : String) : StateData :=
  { id := id, stateName := none, prefixes := [], queryLanguage := none,
    comment := none, inputPath := none, outputPath := none, resultPath := none,
    next := none, defaultChoice := none, choices := [], catches := [],
    retries := [], incomingStates := [], branches := [], iteration := none,
    processor := none, containingGraph := none }

/-- Modelled from the spec: the `StateGraph` ownership container
(`state-graph.ts` is outside the sources).  It holds the member states
registered into it and at most one super-graph reference. -/
structure GraphData where
  states : List Nat
  superGraph : Option Nat
deriving DecidableEq, Repr

/-- A fresh, empty graph. -/
def mkGraph : GraphData := { states := [], superGraph := none }

/-- The whole object graph: states and graphs addressed by index. -/
structure World where
  states : List StateData
  graphs : List GraphData
deriving DecidableEq, Repr

/-- Dereference a state index (a dangling index yields a fresh inert
state; the TypeScript source has no dangling references). -/
def getState (w : World) (s : Nat) : StateData :=
  w.states.getD s (mkState "")

/-- Dereference a graph index. -/
def getGraph (w : World) (g : Nat) : GraphData :=
  w.graphs.getD g mkGraph

/-- Update the state record at index `s`. -/
def updState (w : World) (s : Nat) (f : StateData → StateData) : World :=
  { w with states := w.states.set s (f (getState w s)) }

/-- Update the graph record at index `g`. -/
def updGraph (w : World) (g : Nat) (f : GraphData → GraphData) : World :=
  { w with graphs := w.graphs.set g (f (getGraph w g)) }

/-- The validation errors thrown by the source
(`UnscopedValidationError`), with the diagnostic data each message
carries. -/
inductive SfnError where
  | alreadyInGraph (stateId : String) (target : Nat) (current : Nat)
  | alreadyHasNext (id : String)
  | alreadyHasDefault (id : String)
  | wildcardNotAlone
  | jsonPathNoDollar (path : String)
  | queryLanguageMismatch (path : String)
  | superGraphConflict (sub : Nat)
  | outOfFuel
deriving DecidableEq, Repr

/-- `get id()`: the construct id. -/
def StateData.nodeId (st : StateData) : String := st.id

/-- The effective name used by `stateId`: `this.stateName ? this.stateName : this.id`
(JavaScript truthiness: an empty-string `stateName` falls back to the id). -/
def effectiveName (st : StateData) : String :=
  match st.stateName with
  | some n => if n = "" then st.id else n
  | none => st.id

/-- `get stateId()`: `this.prefixes.concat(this.stateName ? this.stateName : this.id).join('')`. -/
def stateId (st : StateData) : String :=
  (st.prefixes ++ [effectiveName st]).foldr (fun a b => a ++ b) ""

/-- `addPrefix(x)`: `if (x !== '') { this.prefixes.splice(0, 0, x); }` —
a non-empty prefix is inserted at the front of the accumulated list. -/
def addPrefix (st : StateData) (x : String) : StateData :=
  if x ≠ "" then { st with prefixes := x :: st.prefixes } else st

/-- `_getActualQueryLanguage`: `stateLevelQueryLanguage ?? topLevelQueryLanguage ?? QueryLanguage.JSON_PATH`. -/
def _getActualQueryLanguage (topLevelQueryLanguage stateLevelQueryLanguage : Option QueryLanguage) :
    QueryLanguage :=
  stateLevelQueryLanguage.getD (topLevelQueryLanguage.getD QueryLanguage.JSON_PATH)

/-- `renderQueryLanguage`: rejects a JSONPath state inside a JSONata
machine, and emits the `QueryLanguage` field exactly when a JSONata state
sits inside a JSONPath machine. -/
def renderQueryLanguage (st : StateData) (topLevelQueryLanguage : Option QueryLanguage) :
    Except SfnError (Option QueryLanguage) :=
  let top := topLevelQueryLanguage.getD QueryLanguage.JSON_PATH
  if top = QueryLanguage.JSONATA ∧ st.queryLanguage = some QueryLanguage.JSON_PATH then
    .error (.queryLanguageMismatch st.id)
  else
    .ok (if top = QueryLanguage.JSON_PATH ∧ st.queryLanguage = some QueryLanguage.JSONATA then
      some QueryLanguage.JSONATA else none)

/-- `String.prototype.startsWith`, modelled over the character list so
that it evaluates inside the kernel. -/
def strStartsWith (s pre : String) : Bool :=
  pre.data.isPrefixOf s.data

/-- Modelled from the spec: `Token.isUnresolved` of the external core
library detects an unresolved placeholder token; a stringified token
begins with the token marker. -/
def Token.isUnresolved (s : String) : Bool :=
  strStartsWith s "$\x7bToken["

/-- `renderJsonPath`: `undefined` passes through as an absent field; a
defined value must be an unresolved token or start with `'$'`, else a
validation error is thrown. -/
def renderJsonPath (jsonPath : Option String) : Except SfnError (Option String) :=
  match jsonPath with
  | none => .ok none
  | some p =>
    if ¬ Token.isUnresolved p ∧ ¬ strStartsWith p "$" then
      .error (.jsonPathNoDollar p)
    else
      .ok (some p)

/-- `compareErrors`: moves any matcher set containing `Errors.ALL` last;
`a?.includes(...)` on an absent list is falsy. -/
def compareErrors (a b : Option (List String)) : Int :=
  if (a.getD []).contains Errors.ALL then 1
  else if (b.getD []).contains Errors.ALL then -1
  else 0

/-- `validateErrors`: `Errors.ALL` must appear alone in an error list. -/
def validateErrors (errors : Option (List String)) : Except SfnError Unit :=
  match errors with
  | some l => if l.contains Errors.ALL ∧ 1 < l.length then .error .wildcardNotAlone else .ok ()
  | none => .ok ()

/-- One step of a stable comparison sort: insert `x` before the first
element it does not have to follow (`cmp x y <= 0` keeps declaration
order on ties, so earlier elements stay first). -/
def sortInsert (cmp : α → α → Int) (x : α) : List α → List α
  | [] => [x]
  | y :: ys => if cmp x y ≤ 0 then x :: y :: ys else y :: sortInsert cmp x ys

/-- `Array.prototype.sort(cmp)` modelled as a stable comparison sort
(V8's sort is stable, and the spec relies on stability). -/
def sortCmp (cmp : α → α → Int) : List α → List α
  | [] => []
  | x :: xs => sortInsert cmp x (sortCmp cmp xs)

/-- Element-wise rendering with propagation of the first thrown error
(the behaviour of `.map` over a throwing callback). -/
def mapExcept (f : α → Except SfnError β) : List α → Except SfnError (List β)
  | [] => .ok []
  | x :: xs =>
    match f x with
    | .error e => .error e
    | .ok y =>
      match mapExcept f xs with
      | .error e => .error e
      | .ok ys => .ok (y :: ys)

/-- `renderList`: an empty list renders as an absent field; otherwise the
list is sorted (when a comparator is given) and then rendered
element-wise, propagating any rendering error. -/
def renderList (xs : List α) (mapFn : α → Except SfnError β)
    (sortFn : Option (α → α → Int)) : Except SfnError (Option (List β)) :=
  if xs.isEmpty then .ok none
  else
    let list := match sortFn with
      | some cmp => sortCmp cmp xs
      | none => xs
    (mapExcept mapFn list).map some

/-- The ASL fragment of one retry rule. -/
structure RenderedRetry where
  ErrorEquals : Option (List String)
  IntervalSeconds : Option Nat
  MaxAttempts : Option Nat
  BackoffRate : Option Nat
  MaxDelaySeconds : Option Nat
  JitterStrategy : Option String
deriving DecidableEq, Repr

/-- The ASL fragment of one catch handler. -/
structure RenderedCatch where
  Output : Option String
  Assign : Option String
  ErrorEquals : Option (List String)
  ResultPath : Option String
  Next : String
deriving DecidableEq, Repr

/-- Modelled from the spec: `FieldUtils.renderObject`, the external
expression-interpolation renderer, consumed as an opaque pass-through
capability. -/
def FieldUtils.renderObject (x : Option String) : Option String := x

/-- `renderRetry`: the ASL JSON of one retry rule. -/
def renderRetry (retry : RetryProps) : RenderedRetry :=
  { ErrorEquals := retry.errors
    IntervalSeconds := retry.interval
    MaxAttempts := retry.maxAttempts
    BackoffRate := retry.backoffRate
    MaxDelaySeconds := retry.maxDelay
    JitterStrategy := retry.jitterStrategy }

/-- `renderCatch`: the ASL JSON of one catch handler; `Output` is emitted
only under JSONata, `Assign` goes through the interpolation renderer
under JSONPath, and the `ResultPath` may fail validation. -/
def renderCatch (w : World) (c : CatchTransition) (queryLanguage : QueryLanguage) :
    Except SfnError RenderedCatch :=
  match renderJsonPath c.props.resultPath with
  | .error e => .error e
  | .ok rp =>
    if queryLanguage = QueryLanguage.JSONATA then
      .ok { Output := c.props.outputs, Assign := c.props.assign,
            ErrorEquals := c.props.errors, ResultPath := rp,
            Next := stateId (getState w c.next) }
    else
      .ok { Output := none, Assign := FieldUtils.renderObject c.props.assign,
            ErrorEquals := c.props.errors, ResultPath := rp,
            Next := stateId (getState w c.next) }

/-- The `Retry`/`Catch` part of a state's ASL fragment. -/
structure RetryCatchFragment where
  Retry : Option (List RenderedRetry)
  Catch : Option (List RenderedCatch)
deriving DecidableEq, Repr

/-- `renderRetryCatch`: renders the retry list and the catch list, each
sorted by `compareErrors` on its matcher sets. -/
def renderRetryCatch (w : World) (s : Nat) (topLevelQueryLanguage : Option QueryLanguage) :
    Except SfnError RetryCatchFragment :=
  let st := getState w s
  let queryLanguage := _getActualQueryLanguage topLevelQueryLanguage st.queryLanguage
  match renderList st.retries (fun x => .ok (renderRetry x))
      (some (fun a b => compareErrors a.errors b.errors)) with
  | .error e => .error e
  | .ok retry =>
    match renderList st.catches (fun x => renderCatch w x queryLanguage)
        (some (fun a b => compareErrors a.props.errors b.props.errors)) with
    | .error e => .error e
    | .ok cat => .ok { Retry := retry, Catch := cat }

/-- Options of `findReachableStates` / `outgoingTransitions`. -/
structure FindStateOptions where
  includeErrorHandlers : Bool
deriving DecidableEq, Repr

/-- `outgoingTransitions`: default next, default choice, all choice
targets, and the catch targets only when error handlers are included
(in the source's push order). -/
def outgoingTransitions (w : World) (s : Nat) (options : FindStateOptions) : List Nat :=
  let st := getState w s
  st.next.toList ++ st.defaultChoice.toList ++ st.choices.map (fun c => c.next) ++
    (if options.includeErrorHandlers then st.catches.map (fun c => c.next) else [])

/-- `this.containingGraph = graph`. -/
def setContaining (w : World) (s : Nat) (g : Nat) : World :=
  updState w s (fun st => { st with containingGraph := some g })

/-- Modelled from the spec: `StateGraph.registerState` (the default
`whenBoundToGraph` hook) records the state into the graph's member set. -/
def registerState (w : World) (g : Nat) (s : Nat) : World :=
  updGraph w g (fun gr => { gr with states := gr.states ++ [s] })

/-- Modelled from the spec: `StateGraph.registerSuperGraph` links a
sub-graph to its enclosing graph; a graph has at most one super-graph
(relinking to the same one is a no-op, to a different one an error). -/
def registerSuperGraph (w : World) (sub : Nat) (sup : Nat) : Except SfnError World :=
  match (getGraph w sub).superGraph with
  | some p => if p = sup then .ok w else .error (.superGraphConflict sub)
  | none => .ok (updGraph w sub (fun gr => { gr with superGraph := some sup }))

/-- The `for (const branch of this.branches)` loop of `bindToGraph`. -/
def registerSuperGraphAll (w : World) (subs : List Nat) (sup : Nat) : Except SfnError World :=
  match subs with
  | [] => .ok w
  | sub :: rest =>
    match registerSuperGraph w sub sup with
    | .error e => .error e
    | .ok w' => registerSuperGraphAll w' rest sup

/-- The `if (!!this.iteration)` / `if (!!this.processor)` steps of `bindToGraph`. -/
def registerSuperGraphOpt (w : World) (sub : Option Nat) (sup : Nat) : Except SfnError World :=
  match sub with
  | none => .ok w
  | some sb => registerSuperGraph w sb sup

/-- Run an effectful step over a list, threading the world and stopping
at the first error (the shape of the source's `for` loops over states). -/
def exceptFold (f : World → Nat → Except SfnError World) : World → List Nat → Except SfnError World
  | w, [] => .ok w
  | w, x :: rest =>
    match f w x with
    | .error e => .error e
    | .ok w' => exceptFold f w' rest

/-- `bindToGraph(graph)`: no-op when already in `graph`; an error naming
both graphs when already in a different graph; otherwise records the
graph, registers itself (`whenBoundToGraph`), then recursively binds all
incoming states, all outgoing states (error handlers included), and
registers the super-graph of every owned sub-graph.  `fuel` bounds the
recursion depth; each recursive level binds a previously unbound state,
so any fuel exceeding the number of states is enough. -/
def bindToGraph : Nat → World → Nat → Nat → Except SfnError World
  | 0, _, _, _ => .error .outOfFuel
  | fuel + 1, w, s, g =>
    match (getState w s).containingGraph with
    | some g0 =>
      if g0 = g then .ok w
      else .error (.alreadyInGraph (stateId (getState w s)) g g0)
    | none =>
      let w1 := registerState (setContaining w s g) g s
      match exceptFold (fun wa t => bindToGraph fuel wa t g) w1 (getState w1 s).incomingStates with
      | .error e => .error e
      | .ok w2 =>
        match exceptFold (fun wa t => bindToGraph fuel wa t g) w2
            (outgoingTransitions w2 s { includeErrorHandlers := true }) with
        | .error e => .error e
        | .ok w3 =>
          match registerSuperGraphAll w3 (getState w3 s).branches g with
          | .error e => .error e
          | .ok w4 =>
            match registerSuperGraphOpt w4 (getState w4 s).iteration g with
            | .error e => .error e
            | .ok w5 => registerSuperGraphOpt w5 (getState w5 s).processor g

/-- `addIncoming(source)`: record a back-reference on the target. -/
def addIncoming (w : World) (target source : Nat) : World :=
  updState w target (fun st => { st with incomingStates := st.incomingStates ++ [source] })

/-- `makeNext(next)`: at most one default-next; registers the incoming
back-reference and propagates binding when this state is already bound. -/
def makeNext (fuel : Nat) (w : World) (s next : Nat) : Except SfnError World :=
  if (getState w s).next.isSome then .error (.alreadyHasNext (getState w s).id)
  else
    let w2 := addIncoming (updState w s (fun st => { st with next := some next })) next s
    match (getState w2 s).containingGraph with
    | some g => bindToGraph fuel w2 next g
    | none => .ok w2

/-- `addChoice(condition, next, options)`: appends an ordered choice
entry; registers the incoming back-reference on the target's start state
(a bare state is its own start state) and propagates binding. -/
def addChoice (fuel : Nat) (w : World) (s : Nat) (condition : String) (next : Nat)
    (comment outputs assign : Option String) : Except SfnError World :=
  let w1 := updState w s (fun st =>
    { st with choices := st.choices ++
        [{ next := next, condition := condition, comment := comment,
           outputs := outputs, assign := assign }] })
  let w2 := addIncoming w1 next s
  match (getState w2 s).containingGraph with
  | some g => bindToGraph fuel w2 next g
  | none => .ok w2

/-- `makeDefault(def)`: at most one default choice; note that unlike the
other transition declarations it records no incoming back-reference and
does not propagate binding. -/
def makeDefault (w : World) (s d : Nat) : Except SfnError World :=
  if (getState w s).defaultChoice.isSome then .error (.alreadyHasDefault (getState w s).id)
  else .ok (updState w s (fun st => { st with defaultChoice := some d }))

/-- `_addRetry(props)`: validates the matcher set, then appends the rule
with the matcher set defaulted to the wildcard. -/
def State._addRetry (w : World) (s : Nat) (props : RetryProps) : Except SfnError World :=
  match validateErrors props.errors with
  | .error e => .error e
  | .ok _ =>
    .ok (updState w s (fun st =>
      { st with retries := st.retries ++ [{ props with errors := some (props.errors.getD [Errors.ALL]) }] }))

/-- `_addCatch(handler, props)`: validates the matcher set, appends the
catch entry with the matcher set defaulted to the wildcard, registers the
incoming back-reference, and propagates binding. -/
def State._addCatch (fuel : Nat) (w : World) (s handler : Nat) (props : CatchProps) :
    Except SfnError World :=
  match validateErrors props.errors with
  | .error e => .error e
  | .ok _ =>
    let w1 := updState w s (fun st =>
      { st with catches := st.catches ++
          [{ next := handler, props := { props with errors := some (props.errors.getD [Errors.ALL]) } }] })
    let w2 := addIncoming w1 handler s
    match (getState w2 s).containingGraph with
    | some g => bindToGraph fuel w2 handler g
    | none => .ok w2

/-- `addBranch(branch)`: attach a parallel sub-graph; its super-graph is
registered immediately when this state is already bound. -/
def addBranch (w : World) (s branch : Nat) : Except SfnError World :=
  let w1 := updState w s (fun st => { st with branches := st.branches ++ [branch] })
  match (getState w1 s).containingGraph with
  | some g => registerSuperGraph w1 branch g
  | none => .ok w1

/-- `addIterator(iteration)`: attach the iteration sub-graph. -/
def addIterator (w : World) (s iteration : Nat) : Except SfnError World :=
  let w1 := updState w s (fun st => { st with iteration := some iteration })
  match (getState w1 s).containingGraph with
  | some g => registerSuperGraph w1 iteration g
  | none => .ok w1

deriving instance DecidableEq for Except

/-- Updating a state record out of range is a no-op. -/
theorem updState_oob (w : World) (s : Nat) (f : StateData → StateData)
    (h : w.states.length ≤ s) : updState w s f = w := by
  simp [updState, List.set_eq_of_length_le h]

/-- Reading back the updated state record. -/
theorem getState_updState_self (w : World) (s : Nat) (f : StateData → StateData)
    (h : s < w.states.length) : getState (updState w s f) s = f (getState w s) := by
  simp [getState, updState, List.getD, List.getElem?_set_self h,
    List.getElem?_eq_getElem h]

/-- Updating one state record leaves the others unchanged. -/
theorem getState_updState_ne (w : World) (s : Nat) (f : StateData → StateData)
    (t : Nat) (h : s ≠ t) : getState (updState w s f) t = getState w t := by
  simp [getState, updState, List.getD, List.getElem?_set_ne h]

theorem updState_length (w : World) (s : Nat) (f : StateData → StateData) :
    (updState w s f).states.length = w.states.length := by
  simp [updState]

/-- Graph updates do not touch state records. -/
theorem getState_updGraph (w : World) (g : Nat) (f : GraphData → GraphData)
    (t : Nat) : getState (updGraph w g f) t = getState w t := rfl

/-- A state record with its graph membership erased: everything
`bindToGraph` leaves untouched. -/
def coreOf (st : StateData) : StateData := { st with containingGraph := none }

/-- What a successful bind-protocol step preserves: the number of states,
every state's non-membership data, and every established membership. -/
def Preserves (w w' : World) : Prop :=
  w'.states.length = w.states.length ∧
  (∀ t, coreOf (getState w' t) = coreOf (getState w t)) ∧
  (∀ t g, (getState w t).containingGraph = some g →
    (getState w' t).containingGraph = some g)

theorem Preserves.refl (w : World) : Preserves w w :=
  ⟨rfl, fun _ => rfl, fun _ _ h => h⟩

theorem Preserves.trans {w1 w2 w3 : World} (h1 : Preserves w1 w2) (h2 : Preserves w2 w3) :
    Preserves w1 w3 :=
  ⟨h1.1 ▸ h2.1, fun t => (h2.2.1 t).trans (h1.2.1 t),
   fun t g h => h2.2.2 t g (h1.2.2 t g h)⟩

theorem preserves_setContaining (w : World) (s g : Nat)
    (h : (getState w s).containingGraph = none) :
    Preserves w (setContaining w s g) := by
  by_cases hs : s < w.states.length
  · refine ⟨by simp [setContaining, updState_length], ?_, ?_⟩
    · intro t
      by_cases hts : s = t
      · subst hts
        rw [setContaining, getState_updState_self w s _ hs]
        rfl
      · rw [setContaining, getState_updState_ne w s _ t hts]
    · intro t g' hg
      by_cases hts : s = t
      · subst hts
        rw [h] at hg
        exact absurd hg (by simp)
      · rw [setContaining, getState_updState_ne w s _ t hts]
        exact hg
  · rw [setContaining, updState_oob w s _ (by omega)]
    exact Preserves.refl w

theorem preserves_registerState (w : World) (g s : Nat) :
    Preserves w (registerState w g s) :=
  ⟨rfl, fun _ => rfl, fun _ _ h => h⟩

theorem preserves_registerSuperGraph {w w' : World} {a b : Nat}
    (h : registerSuperGraph w a b = .ok w') : Preserves w w' := by
  unfold registerSuperGraph at h
  split at h
  · split at h
    · cases h
      exact Preserves.refl w
    · cases h
  · cases h
    exact ⟨rfl, fun _ => rfl, fun _ _ h => h⟩

theorem preserves_registerSuperGraphAll {subs : List Nat} :
    ∀ {w w' : World} {sup : Nat}, registerSuperGraphAll w subs sup = .ok w' → Preserves w w' := by
  induction subs with
  | nil => intro w w' sup h; cases h; exact Preserves.refl _
  | cons x rest ih =>
    intro w w' sup h
    unfold registerSuperGraphAll at h
    split at h
    · cases h
    · rename_i w1 heq
      exact (preserves_registerSuperGraph heq).trans (ih h)

theorem preserves_registerSuperGraphOpt {w w' : World} {sub : Option Nat} {sup : Nat}
    (h : registerSuperGraphOpt w sub sup = .ok w') : Preserves w w' := by
  unfold registerSuperGraphOpt at h
  split at h
  · cases h; exact Preserves.refl _
  · exact preserves_registerSuperGraph h

theorem preserves_exceptFold {f : World → Nat → Except SfnError World}
    (hf : ∀ w x w', f w x = .ok w' → Preserves w w') :
    ∀ {l : List Nat} {w w' : World}, exceptFold f w l = .ok w' → Preserves w w' := by
  intro l
  induction l with
  | nil => intro w w' h; cases h; exact Preserves.refl _
  | cons x rest ih =>
    intro w w' h
    unfold exceptFold at h
    split at h
    · cases h
    · rename_i w1 heq
      exact (hf w x w1 heq).trans (ih h)

/-- A successful `bindToGraph` changes no state's non-membership data and
revokes no established membership. -/
theorem bind_preserves : ∀ (fuel : Nat) {w : World} {s g : Nat} {w' : World},
    bindToGraph fuel w s g = .ok w' → Preserves w w' := by
  intro fuel
  induction fuel with
  | zero => intro w s g w' h; simp [bindToGraph] at h
  | succ n ih =>
    intro w s g w' h
    simp only [bindToGraph] at h
    split at h
    · split at h
      · cases h; exact Preserves.refl _
      · cases h
    · rename_i hnone
      split at h
      · cases h
      · rename_i w2 hfold1
        split at h
        · cases h
        · rename_i w3 hfold2
          split at h
          · cases h
          · rename_i w4 hsga
            split at h
            · cases h
            · rename_i w5 hsgo
              have p1 : Preserves w (registerState (setContaining w s g) g s) :=
                (preserves_setContaining w s g hnone).trans (preserves_registerState _ g s)
              have p2 := preserves_exceptFold (fun _ _ _ hb => ih hb) hfold1
              have p3 := preserves_exceptFold (fun _ _ _ hb => ih hb) hfold2
              have p4 := preserves_registerSuperGraphAll hsga
              have p5 := preserves_registerSuperGraphOpt hsgo
              have p6 := preserves_registerSuperGraphOpt h
              exact ((((p1.trans p2).trans p3).trans p4).trans p5).trans p6

/-- A successful `bindToGraph` leaves the bound state a member of the
target graph. -/
theorem bind_binds_self : ∀ (fuel : Nat) {w : World} {s g : Nat} {w' : World},
    s < w.states.length → bindToGraph fuel w s g = .ok w' →
    (getState w' s).containingGraph = some g := by
  intro fuel
  cases fuel with
  | zero => intro w s g w' hs h; simp [bindToGraph] at h
  | succ n =>
    intro w s g w' hs h
    simp only [bindToGraph] at h
    split at h
    · rename_i g0 hsome
      split at h
      · rename_i hgg
        cases h
        rw [hsome, hgg]
      · cases h
    · rename_i hnone
      split at h
      · cases h
      · rename_i w2 hfold1
        split at h
        · cases h
        · rename_i w3 hfold2
          split at h
          · cases h
          · rename_i w4 hsga
            split at h
            · cases h
            · rename_i w5 hsgo
              have hb1 : (getState (registerState (setContaining w s g) g s) s).containingGraph
                  = some g := by
                rw [registerState, getState_updGraph, setContaining,
                  getState_updState_self w s _ hs]
              have p2 := preserves_exceptFold (fun _ _ _ hb => bind_preserves n hb) hfold1
              have p3 := preserves_exceptFold (fun _ _ _ hb => bind_preserves n hb) hfold2
              have p4 := preserves_registerSuperGraphAll hsga
              have p5 := preserves_registerSuperGraphOpt hsgo
              have p6 := preserves_registerSuperGraphOpt h
              exact p6.2.2 s g (p5.2.2 s g (p4.2.2 s g (p3.2.2 s g (p2.2.2 s g hb1))))

/-- After a successful binding loop over a list of states, every listed
state is a member of the target graph. -/
theorem exceptFold_bind_bound (n g : Nat) :
    ∀ {l : List Nat} {w w' : World},
    exceptFold (fun wa t => bindToGraph n wa t g) w l = .ok w' →
    ∀ t ∈ l, t < w.states.length → (getState w' t).containingGraph = some g := by
  intro l
  induction l with
  | nil => intro w w' h t ht; cases ht
  | cons x rest ih =>
    intro w w' h t ht hlen
    unfold exceptFold at h
    split at h
    · cases h
    · rename_i w1 hx
      rcases List.mem_cons.mp ht with rfl | hmem
      · have hb := bind_binds_self n hlen hx
        have p := preserves_exceptFold (fun _ _ _ hb' => bind_preserves n hb') h
        exact p.2.2 t g hb
      · have p1 := bind_preserves n hx
        exact ih h t hmem (by rw [p1.1]; exact hlen)

/-- The outgoing transitions only depend on the non-membership data. -/
theorem outgoing_eq_of_core {w w' : World}
    (h : ∀ t, coreOf (getState w' t) = coreOf (getState w t)) (s : Nat)
    (o : FindStateOptions) :
    outgoingTransitions w' s o = outgoingTransitions w s o := by
  have hn : (getState w' s).next = (getState w s).next := congrArg (fun st => st.next) (h s)
  have hd : (getState w' s).defaultChoice = (getState w s).defaultChoice :=
    congrArg (fun st => st.defaultChoice) (h s)
  have hc : (getState w' s).choices = (getState w s).choices :=
    congrArg (fun st => st.choices) (h s)
  have hcat : (getState w' s).catches = (getState w s).catches :=
    congrArg (fun st => st.catches) (h s)
  simp only [outgoingTransitions, hn, hd, hc, hcat]

/-- The incoming list only depends on the non-membership data. -/
theorem Preserves.incoming_eq {w w' : World} (p : Preserves w w') (t : Nat) :
    (getState w' t).incomingStates = (getState w t).incomingStates :=
  congrArg (fun st => st.incomingStates) (p.2.1 t)

/-- The catch list only depends on the non-membership data. -/
theorem Preserves.catches_eq {w w' : World} (p : Preserves w w') (t : Nat) :
    (getState w' t).catches = (getState w t).catches :=
  congrArg (fun st => st.catches) (p.2.1 t)

/-- `addIncoming` only touches the target's incoming list. -/
theorem addIncoming_next (w : World) (tgt src t : Nat) :
    (getState (addIncoming w tgt src) t).next = (getState w t).next := by
  by_cases h : tgt = t
  · subst h
    by_cases hl : tgt < w.states.length
    · rw [addIncoming, getState_updState_self _ _ _ hl]
    · rw [addIncoming, updState_oob _ _ _ (by omega)]
  · rw [addIncoming, getState_updState_ne _ _ _ _ h]

theorem addIncoming_choices (w : World) (tgt src t : Nat) :
    (getState (addIncoming w tgt src) t).choices = (getState w t).choices := by
  by_cases h : tgt = t
  · subst h
    by_cases hl : tgt < w.states.length
    · rw [addIncoming, getState_updState_self _ _ _ hl]
    · rw [addIncoming, updState_oob _ _ _ (by omega)]
  · rw [addIncoming, getState_updState_ne _ _ _ _ h]

theorem addIncoming_catches (w : World) (tgt src t : Nat) :
    (getState (addIncoming w tgt src) t).catches = (getState w t).catches := by
  by_cases h : tgt = t
  · subst h
    by_cases hl : tgt < w.states.length
    · rw [addIncoming, getState_updState_self _ _ _ hl]
    · rw [addIncoming, updState_oob _ _ _ (by omega)]
  · rw [addIncoming, getState_updState_ne _ _ _ _ h]

/-- `addIncoming` appends the source to the target's incoming list. -/
theorem addIncoming_self (w : World) (tgt src : Nat) (h : tgt < w.states.length) :
    (getState (addIncoming w tgt src) tgt).incomingStates
      = (getState w tgt).incomingStates ++ [src] := by
  rw [addIncoming, getState_updState_self _ _ _ h]

/-- Binding an unbound state propagates membership forward into every
outgoing transition target (error handlers included). -/
theorem bind_propagates_forward (fuel : Nat) (w : World) (a b g : Nat) (w' : World)
    (hout : b ∈ outgoingTransitions w a { includeErrorHandlers := true })
    (hb : b < w.states.length)
    (hnone : (getState w a).containingGraph = none)
    (h : bindToGraph fuel w a g = .ok w') :
    (getState w' b).containingGraph = some g := by
  cases fuel with
  | zero => simp [bindToGraph] at h
  | succ n =>
    simp only [bindToGraph] at h
    split at h
    · rename_i g0 hsome
      rw [hnone] at hsome
      cases hsome
    · split at h
      · cases h
      · rename_i w2 hfold1
        split at h
        · cases h
        · rename_i w3 hfold2
          split at h
          · cases h
          · rename_i w4 hsga
            split at h
            · cases h
            · rename_i w5 hsgo
              have p1 : Preserves w (registerState (setContaining w a g) g a) :=
                (preserves_setContaining w a g hnone).trans (preserves_registerState _ g a)
              have p2 := p1.trans
                (preserves_exceptFold (fun _ _ _ hx => bind_preserves n hx) hfold1)
              have hout2 : b ∈ outgoingTransitions w2 a { includeErrorHandlers := true } := by
                rw [outgoing_eq_of_core p2.2.1 a]
                exact hout
              have hb2 : b < w2.states.length := by
                rw [p2.1]
                exact hb
              have hb3 := exceptFold_bind_bound n g hfold2 b hout2 hb2
              have p4 := preserves_registerSuperGraphAll hsga
              have p5 := preserves_registerSuperGraphOpt hsgo
              have p6 := preserves_registerSuperGraphOpt h
              exact p6.2.2 b g (p5.2.2 b g (p4.2.2 b g hb3))

/-- Binding an unbound state propagates membership backward into every
state recorded on its incoming list. -/
theorem bind_propagates_backward (fuel : Nat) (w : World) (a b g : Nat) (w' : World)
    (hin : a ∈ (getState w b).incomingStates)
    (ha : a < w.states.length)
    (hnone : (getState w b).containingGraph = none)
    (h : bindToGraph fuel w b g = .ok w') :
    (getState w' a).containingGraph = some g := by
  cases fuel with
  | zero => simp [bindToGraph] at h
  | succ n =>
    simp only [bindToGraph] at h
    split at h
    · rename_i g0 hsome
      rw [hnone] at hsome
      cases hsome
    · split at h
      · cases h
      · rename_i w2 hfold1
        split at h
        · cases h
        · rename_i w3 hfold2
          split at h
          · cases h
          · rename_i w4 hsga
            split at h
            · cases h
            · rename_i w5 hsgo
              have p1 : Preserves w (registerState (setContaining w b g) g b) :=
                (preserves_setContaining w b g hnone).trans (preserves_registerState _ g b)
              have hin1 : a ∈ (getState (registerState (setContaining w b g) g b) b).incomingStates := by
                have heq : (getState (registerState (setContaining w b g) g b) b).incomingStates
                    = (getState w b).incomingStates :=
                  congrArg (fun st => st.incomingStates) (p1.2.1 b)
                rw [heq]
                exact hin
              have ha1 : a < (registerState (setContaining w b g) g b).states.length := by
                rw [p1.1]
                exact ha
              have hb2 := exceptFold_bind_bound n g hfold1 a hin1 ha1
              have p3 := preserves_exceptFold (fun _ _ _ hx => bind_preserves n hx) hfold2
              have p4 := preserves_registerSuperGraphAll hsga
              have p5 := preserves_registerSuperGraphOpt hsgo
              have p6 := preserves_registerSuperGraphOpt h
              exact p6.2.2 a g (p5.2.2 a g (p4.2.2 a g (p3.2.2 a g hb2)))

/-- A successful `makeNext` leaves the target among the source's outgoing
transitions and the source on the target's incoming list. -/
theorem makeNext_edges (fuel : Nat) (w : World) (a b : Nat) (w' : World)
    (ha : a < w.states.length) (hb : b < w.states.length)
    (h : makeNext fuel w a b = .ok w') :
    b ∈ outgoingTransitions w' a { includeErrorHandlers := true } ∧
    a ∈ (getState w' b).incomingStates := by
  simp only [makeNext] at h
  split at h
  · cases h
  · have hn2 : (getState (addIncoming (updState w a fun st => { st with next := some b }) b a) a).next
        = some b := by
      rw [addIncoming_next, getState_updState_self w a _ ha]
    have hin2 : a ∈ (getState (addIncoming (updState w a fun st => { st with next := some b }) b a) b).incomingStates := by
      rw [addIncoming_self _ _ _ (by rw [updState_length]; exact hb)]
      simp
    have pw : Preserves (addIncoming (updState w a fun st => { st with next := some b }) b a) w' := by
      split at h
      · exact bind_preserves fuel h
      · cases h
        exact Preserves.refl _
    constructor
    · rw [outgoing_eq_of_core pw.2.1 a]
      simp [outgoingTransitions, hn2]
    · rw [pw.incoming_eq b]
      exact hin2

/-- A successful `addChoice` leaves the target among the source's
outgoing transitions and the source on the target's incoming list. -/
theorem addChoice_edges (fuel : Nat) (w : World) (a : Nat) (condition : String) (b : Nat)
    (comment outputs assign : Option String) (w' : World)
    (ha : a < w.states.length) (hb : b < w.states.length)
    (h : addChoice fuel w a condition b comment outputs assign = .ok w') :
    b ∈ outgoingTransitions w' a { includeErrorHandlers := true } ∧
    a ∈ (getState w' b).incomingStates := by
  simp only [addChoice] at h
  have hc2 : (getState (addIncoming (updState w a fun st =>
      { st with choices := st.choices ++
          [{ next := b, condition := condition, comment := comment,
             outputs := outputs, assign := assign }] }) b a) a).choices
      = (getState w a).choices ++
          [{ next := b, condition := condition, comment := comment,
             outputs := outputs, assign := assign }] := by
    rw [addIncoming_choices, getState_updState_self w a _ ha]
  have hin2 : a ∈ (getState (addIncoming (updState w a fun st =>
      { st with choices := st.choices ++
          [{ next := b, condition := condition, comment := comment,
             outputs := outputs, assign := assign }] }) b a) b).incomingStates := by
    rw [addIncoming_self _ _ _ (by rw [updState_length]; exact hb)]
    simp
  have pw : Preserves (addIncoming (updState w a fun st =>
      { st with choices := st.choices ++
          [{ next := b, condition := condition, comment := comment,
             outputs := outputs, assign := assign }] }) b a) w' := by
    split at h
    · exact bind_preserves fuel h
    · cases h
      exact Preserves.refl _
  constructor
  · rw [outgoing_eq_of_core pw.2.1 a]
    simp [outgoingTransitions, hc2]
  · rw [pw.incoming_eq b]
    exact hin2

/-- A successful `_addCatch` leaves the handler among the source's
outgoing transitions (when error handlers are included) and the source on
the handler's incoming list. -/
theorem addCatch_edges (fuel : Nat) (w : World) (a b : Nat) (props : CatchProps) (w' : World)
    (ha : a < w.states.length) (hb : b < w.states.length)
    (h : State._addCatch fuel w a b props = .ok w') :
    b ∈ outgoingTransitions w' a { includeErrorHandlers := true } ∧
    a ∈ (getState w' b).incomingStates := by
  simp only [State._addCatch] at h
  split at h
  · cases h
  · have hc2 : (getState (addIncoming (updState w a fun st =>
        { st with catches := st.catches ++
            [{ next := b, props := { props with errors := some (props.errors.getD [Errors.ALL]) } }] }) b a) a).catches
        = (getState w a).catches ++
            [{ next := b, props := { props with errors := some (props.errors.getD [Errors.ALL]) } }] := by
      rw [addIncoming_catches, getState_updState_self w a _ ha]
    have hin2 : a ∈ (getState (addIncoming (updState w a fun st =>
        { st with catches := st.catches ++
            [{ next := b, props := { props with errors := some (props.errors.getD [Errors.ALL]) } }] }) b a) b).incomingStates := by
      rw [addIncoming_self _ _ _ (by rw [updState_length]; exact hb)]
      simp
    have pw : Preserves (addIncoming (updState w a fun st =>
        { st with catches := st.catches ++
            [{ next := b, props := { props with errors := some (props.errors.getD [Errors.ALL]) } }] }) b a) w' := by
      split at h
      · exact bind_preserves fuel h
      · cases h
        exact Preserves.refl _
    constructor
    · rw [outgoing_eq_of_core pw.2.1 a]
      simp [outgoingTransitions, hc2]
    · rw [pw.incoming_eq b]
      exact hin2

/-- A successful `makeDefault` leaves the target among the source's
outgoing transitions but records no incoming back-reference on it. -/
theorem makeDefault_edges (w : World) (a b : Nat) (w' : World)
    (ha : a < w.states.length)
    (h : makeDefault w a b = .ok w') :
    b ∈ outgoingTransitions w' a { includeErrorHandlers := true } ∧
    (getState w' b).incomingStates = (getState w b).incomingStates := by
  simp only [makeDefault] at h
  split at h
  · cases h
  · cases h
    constructor
    · have hd : (getState (updState w a fun st => { st with defaultChoice := some b }) a).defaultChoice
          = some b := by
        rw [getState_updState_self w a _ ha]
      simp [outgoingTransitions, hd]
    · by_cases hab : a = b
      · subst hab
        rw [getState_updState_self w a _ ha]
      · rw [getState_updState_ne w a _ b hab]

/-- A two-state world: states `a` and `b`, one empty graph, no transitions yet. -/
def c1World : World := { states := [mkState "a", mkState "b"], graphs := [mkGraph] }

/-- `c1World` after declaring `b` as `a`'s default-choice transition. -/
def c1World1 : World :=
  { states := [{ mkState "a" with defaultChoice := some 1 }, mkState "b"],
    graphs := [mkGraph] }

/-- `c1World1` after binding `b` to graph `0`. -/
def c1World2 : World :=
  { states := [{ mkState "a" with defaultChoice := some 1 },
               { mkState "b" with containingGraph := some 0 }],
    graphs := [{ states := [1], superGraph := none }] }

/-- C1 counterexample: for the default-choice transition `a -> b`
declared (by `makeDefault`) before either state is bound, binding `b` to
graph `0` succeeds but does NOT bind `a`: `makeDefault` records no
incoming back-reference, so propagation along a default-choice transition
is not symmetric, contradicting the claim for that transition type. -/
theorem c1_default_choice_not_backward :
    makeDefault c1World 0 1 = .ok c1World1 ∧
    (getState c1World1 0).containingGraph = none ∧
    (getState c1World1 1).containingGraph = none ∧
    1 ∈ outgoingTransitions c1World1 0 { includeErrorHandlers := true } ∧
    bindToGraph 3 c1World1 1 0 = .ok c1World2 ∧
    (getState c1World2 1).containingGraph = some 0 ∧
    (getState c1World2 0).containingGraph = none := by
  decide

/-- C1 (amended): binding propagates along transitions as follows.
Binding an unbound state `a` to `G` binds every outgoing transition
target (default-next, choice branch, default-choice, catch handler) to
`G`; binding an unbound state `b` to `G` binds every state on `b`'s
incoming list to `G`; the declarations `makeNext`, `addChoice` and
`_addCatch` put the target among the source's outgoing transitions AND
the source on the target's incoming list, so for those three transition
types binding either endpoint binds the other; `makeDefault` puts the
target among the source's outgoing transitions but records no incoming
back-reference, so a default-choice transition propagates binding
forward only. -/
theorem c1_transition_binding_propagation :
    (∀ (fuel : Nat) (w : World) (a b g : Nat) (w' : World),
      b ∈ outgoingTransitions w a { includeErrorHandlers := true } →
      b < w.states.length →
      (getState w a).containingGraph = none →
      bindToGraph fuel w a g = .ok w' →
      (getState w' b).containingGraph = some g) ∧
    (∀ (fuel : Nat) (w : World) (a b g : Nat) (w' : World),
      a ∈ (getState w b).incomingStates →
      a < w.states.length →
      (getState w b).containingGraph = none →
      bindToGraph fuel w b g = .ok w' →
      (getState w' a).containingGraph = some g) ∧
    (∀ (fuel : Nat) (w : World) (a b : Nat) (w' : World),
      a < w.states.length → b < w.states.length →
      makeNext fuel w a b = .ok w' →
      b ∈ outgoingTransitions w' a { includeErrorHandlers := true } ∧
      a ∈ (getState w' b).incomingStates) ∧
    (∀ (fuel : Nat) (w : World) (a : Nat) (condition : String) (b : Nat)
        (comment outputs assign : Option String) (w' : World),
      a < w.states.length → b < w.states.length →
      addChoice fuel w a condition b comment outputs assign = .ok w' →
      b ∈ outgoingTransitions w' a { includeErrorHandlers := true } ∧
      a ∈ (getState w' b).incomingStates) ∧
    (∀ (fuel : Nat) (w : World) (a b : Nat) (props : CatchProps) (w' : World),
      a < w.states.length → b < w.states.length →
      State._addCatch fuel w a b props = .ok w' →
      b ∈ outgoingTransitions w' a { includeErrorHandlers := true } ∧
      a ∈ (getState w' b).incomingStates) ∧
    (∀ (w : World) (a b : Nat) (w' : World),
      a < w.states.length →
      makeDefault w a b = .ok w' →
      b ∈ outgoingTransitions w' a { includeErrorHandlers := true } ∧
      (getState w' b).incomingStates = (getState w b).incomingStates) :=
  ⟨fun fuel w a b g w' h1 h2 h3 h4 => bind_propagates_forward fuel w a b g w' h1 h2 h3 h4,
   fun fuel w a b g w' h1 h2 h3 h4 => bind_propagates_backward fuel w a b g w' h1 h2 h3 h4,
   fun fuel w a b w' h1 h2 h3 => makeNext_edges fuel w a b w' h1 h2 h3,
   fun fuel w a c b cm o s w' h1 h2 h3 => addChoice_edges fuel w a c b cm o s w' h1 h2 h3,
   fun fuel w a b p w' h1 h2 h3 => addCatch_edges fuel w a b p w' h1 h2 h3,
   fun w a b w' h1 h2 => makeDefault_edges w a b w' h1 h2⟩

/-- A declared `a -> b` default-next transition on two unbound states. -/
def c1WitA : World :=
  { states := [{ mkState "a" with next := some 1 },
               { mkState "b" with incomingStates := [0] }],
    graphs := [mkGraph] }

/-- `c1WitA` after binding state `0`: both states in graph `0`. -/
def c1WitAF : World :=
  { states := [{ mkState "a" with next := some 1, containingGraph := some 0 },
               { mkState "b" with incomingStates := [0], containingGraph := some 0 }],
    graphs := [{ states := [0, 1], superGraph := none }] }

/-- `c1WitA` after binding state `1`: both states in graph `0`. -/
def c1WitAB : World :=
  { states := [{ mkState "a" with next := some 1, containingGraph := some 0 },
               { mkState "b" with incomingStates := [0], containingGraph := some 0 }],
    graphs := [{ states := [1, 0], superGraph := none }] }

/-- Two unbound states and no graph, before any declaration. -/
def c1Wit0 : World := { states := [mkState "a", mkState "b"], graphs := [] }

/-- `c1Wit0` after `makeNext`. -/
def c1WitN : World :=
  { states := [{ mkState "a" with next := some 1 },
               { mkState "b" with incomingStates := [0] }],
    graphs := [] }

/-- The choice transition declared in the C1 witness. -/
def c1ChoiceT : ChoiceTransition :=
  { next := 1, condition := "c", comment := none, outputs := none, assign := none }

/-- `c1Wit0` after `addChoice`. -/
def c1WitC : World :=
  { states := [{ mkState "a" with choices := [c1ChoiceT] },
               { mkState "b" with incomingStates := [0] }],
    graphs := [] }

/-- The catch transition declared in the C1 witness. -/
def c1CatchT : CatchTransition :=
  { next := 1,
    props := { errors := some [Errors.ALL], resultPath := none,
               outputs := none, assign := none } }

/-- `c1Wit0` after `_addCatch`. -/
def c1WitE : World :=
  { states := [{ mkState "a" with catches := [c1CatchT] },
               { mkState "b" with incomingStates := [0] }],
    graphs := [] }

/-- `c1Wit0` after `makeDefault`. -/
def c1WitD : World :=
  { states := [{ mkState "a" with defaultChoice := some 1 }, mkState "b"],
    graphs := [] }

/-- Witness for C1 (amended) at concrete two-state worlds. -/
theorem c1_transition_binding_propagation_witness :
    (getState c1WitAF 1).containingGraph = some 0 ∧
    (getState c1WitAB 0).containingGraph = some 0 ∧
    (1 ∈ outgoingTransitions c1WitN 0 { includeErrorHandlers := true } ∧
      0 ∈ (getState c1WitN 1).incomingStates) ∧
    (1 ∈ outgoingTransitions c1WitC 0 { includeErrorHandlers := true } ∧
      0 ∈ (getState c1WitC 1).incomingStates) ∧
    (1 ∈ outgoingTransitions c1WitE 0 { includeErrorHandlers := true } ∧
      0 ∈ (getState c1WitE 1).incomingStates) ∧
    (1 ∈ outgoingTransitions c1WitD 0 { includeErrorHandlers := true } ∧
      (getState c1WitD 1).incomingStates = (getState c1Wit0 1).incomingStates) :=
  ⟨c1_transition_binding_propagation.1 4 c1WitA 0 1 0 c1WitAF
      (by decide) (by decide) (by decide) (by decide),
   c1_transition_binding_propagation.2.1 4 c1WitA 0 1 0 c1WitAB
      (by decide) (by decide) (by decide) (by decide),
   c1_transition_binding_propagation.2.2.1 1 c1Wit0 0 1 c1WitN
      (by decide) (by decide) (by decide),
   c1_transition_binding_propagation.2.2.2.1 1 c1Wit0 0 "c" 1 none none none c1WitC
      (by decide) (by decide) (by decide),
   c1_transition_binding_propagation.2.2.2.2.1 1 c1Wit0 0 1
      { errors := none, resultPath := none, outputs := none, assign := none } c1WitE
      (by decide) (by decide) (by decide),
   c1_transition_binding_propagation.2.2.2.2.2 c1Wit0 0 1 c1WitD
      (by decide) (by decide)⟩

/-- C2: for a state already bound to graph `g`, binding to `g` again is
a no-op returning the world unchanged, and binding to any distinct graph
fails with an error reporting both the requested and the current graph
(raised before any mutation takes place). -/
theorem c2_bind_idempotent_and_conflict (fuel : Nat) (w : World) (s g g' : Nat)
    (hbound : (getState w s).containingGraph = some g) :
    bindToGraph (fuel + 1) w s g = .ok w ∧
    (g' ≠ g → bindToGraph (fuel + 1) w s g' =
      .error (.alreadyInGraph (stateId (getState w s)) g' g)) := by
  constructor
  · simp [bindToGraph, hbound]
  · intro hne
    simp [bindToGraph, hbound, Ne.symm hne]

/-- A one-state world with the state already bound to graph `0`. -/
def c2World : World :=
  { states := [{ mkState "a" with containingGraph := some 0 }],
    graphs := [{ states := [0], superGraph := none }] }

/-- Witness for C2 at a concrete bound state. -/
theorem c2_bind_idempotent_and_conflict_witness :
    bindToGraph 1 c2World 0 0 = .ok c2World ∧
    bindToGraph 1 c2World 0 1 =
      .error (.alreadyInGraph (stateId (getState c2World 0)) 1 0) :=
  ⟨(c2_bind_idempotent_and_conflict 0 c2World 0 0 1 rfl).1,
   (c2_bind_idempotent_and_conflict 0 c2World 0 0 1 rfl).2 (by decide)⟩

/-- C5 counterexample: prefixing state `X` with `"A"` and then `"B"`
resolves to `"BAX"`, not `"AB" + originalId = "ABX"` as claimed — each
call inserts at the front, so the later prefix ends up leftmost. -/
theorem c5_prefix_order_counterexample :
    stateId (addPrefix (addPrefix (mkState "X") "A") "B") = "BAX" ∧
    ¬ stateId (addPrefix (addPrefix (mkState "X") "A") "B") = "AB" ++ "X" := by
  decide

/-- C5 (amended): a non-empty prefix is inserted at the front of the
accumulated list, an empty-string prefix is a no-op, and prefixing with
`a` then `b` yields the resolved identifier `b ++ a ++` (the previous
resolved identifier) — the later prefix is leftmost. -/
theorem c5_prefix_amended :
    (∀ (st : StateData) (x : String), x ≠ "" →
      (addPrefix st x).prefixes = x :: st.prefixes) ∧
    (∀ st : StateData, addPrefix st "" = st) ∧
    (∀ (st : StateData) (a b : String), a ≠ "" → b ≠ "" →
      stateId (addPrefix (addPrefix st a) b) = b ++ (a ++ stateId st)) := by
  refine ⟨?_, ?_, ?_⟩
  · intro st x hx
    simp [addPrefix, hx]
  · intro st
    simp [addPrefix]
  · intro st a b ha hb
    simp [addPrefix, ha, hb, stateId, effectiveName]

/-- Witness for C5 (amended) at the concrete state `X` and prefixes
`"A"`, `"B"`. -/
theorem c5_prefix_amended_witness :
    (addPrefix (mkState "X") "A").prefixes = "A" :: (mkState "X").prefixes ∧
    addPrefix (mkState "X") "" = mkState "X" ∧
    stateId (addPrefix (addPrefix (mkState "X") "A") "B") = "B" ++ ("A" ++ stateId (mkState "X")) :=
  ⟨c5_prefix_amended.1 (mkState "X") "A" (by decide),
   c5_prefix_amended.2.1 (mkState "X"),
   c5_prefix_amended.2.2 (mkState "X") "A" "B" (by decide) (by decide)⟩

/-- C6: the node-level query language wins over the root level, JSONPath
is the default when neither is set; rendering the dialect annotation
fails exactly when the root dialect is JSONata and the node explicitly
requests JSONPath; and a JSONata node inside a JSONPath (or unset) root
renders with the JSONata marker. -/
theorem c6_query_language_resolution :
    (∀ (root : Option QueryLanguage) (n : QueryLanguage),
      _getActualQueryLanguage root (some n) = n) ∧
    (∀ r : QueryLanguage, _getActualQueryLanguage (some r) none = r) ∧
    _getActualQueryLanguage none none = QueryLanguage.JSON_PATH ∧
    (∀ (st : StateData) (root : Option QueryLanguage),
      renderQueryLanguage st root = .error (.queryLanguageMismatch st.id) ↔
        (root = some QueryLanguage.JSONATA ∧
          st.queryLanguage = some QueryLanguage.JSON_PATH)) ∧
    (∀ (st : StateData) (root : Option QueryLanguage),
      root.getD QueryLanguage.JSON_PATH = QueryLanguage.JSON_PATH →
      st.queryLanguage = some QueryLanguage.JSONATA →
      renderQueryLanguage st root = .ok (some QueryLanguage.JSONATA)) := by
  refine ⟨fun root n => rfl, fun r => rfl, rfl, ?_, ?_⟩
  · intro st root
    rcases root with _ | r
    · rcases hq : st.queryLanguage with _ | q
      · simp [renderQueryLanguage, hq]
      · cases q <;> simp [renderQueryLanguage, hq]
    · rcases hq : st.queryLanguage with _ | q
      · cases r <;> simp [renderQueryLanguage, hq]
      · cases r <;> cases q <;> simp [renderQueryLanguage, hq]
  · intro st root h1 h2
    rcases root with _ | r
    · simp [renderQueryLanguage, h2]
    · simp only [Option.getD] at h1
      subst h1
      simp [renderQueryLanguage, h2]

/-- Witness for C6 at a concrete JSONata node in a JSONPath root. -/
theorem c6_query_language_resolution_witness :
    renderQueryLanguage { mkState "n" with queryLanguage := some QueryLanguage.JSONATA }
        (some QueryLanguage.JSON_PATH) = .ok (some QueryLanguage.JSONATA) ∧
    (renderQueryLanguage { mkState "n" with queryLanguage := some QueryLanguage.JSON_PATH }
        (some QueryLanguage.JSONATA) = .error (.queryLanguageMismatch "n") ↔
      (some QueryLanguage.JSONATA = some QueryLanguage.JSONATA ∧
        ({ mkState "n" with queryLanguage := some QueryLanguage.JSON_PATH } : StateData).queryLanguage
          = some QueryLanguage.JSON_PATH)) :=
  ⟨c6_query_language_resolution.2.2.2.2
      { mkState "n" with queryLanguage := some QueryLanguage.JSONATA }
      (some QueryLanguage.JSON_PATH) (by decide) (by decide),
   c6_query_language_resolution.2.2.2.1
      { mkState "n" with queryLanguage := some QueryLanguage.JSON_PATH }
      (some QueryLanguage.JSONATA)⟩

/-- `addIncoming` leaves every state's membership unchanged. -/
theorem addIncoming_containing (w : World) (tgt src t : Nat) :
    (getState (addIncoming w tgt src) t).containingGraph = (getState w t).containingGraph := by
  by_cases h : tgt = t
  · subst h
    by_cases hl : tgt < w.states.length
    · rw [addIncoming, getState_updState_self _ _ _ hl]
    · rw [addIncoming, updState_oob _ _ _ (by omega)]
  · rw [addIncoming, getState_updState_ne _ _ _ _ h]

/-- C7: a matcher list combining the wildcard with any other matcher is
rejected at declaration time by `validateErrors`, hence by `_addRetry`
and `_addCatch`, and the rule is not added; an omitted matcher list is
stored as exactly the singleton wildcard matcher. -/
theorem c7_wildcard_exclusivity :
    (∀ errs : List String, Errors.ALL ∈ errs → 1 < errs.length →
      validateErrors (some errs) = .error .wildcardNotAlone) ∧
    (∀ (w : World) (s : Nat) (props : RetryProps) (errs : List String),
      props.errors = some errs → Errors.ALL ∈ errs → 1 < errs.length →
      State._addRetry w s props = .error .wildcardNotAlone) ∧
    (∀ (fuel : Nat) (w : World) (s handler : Nat) (props : CatchProps) (errs : List String),
      props.errors = some errs → Errors.ALL ∈ errs → 1 < errs.length →
      State._addCatch fuel w s handler props = .error .wildcardNotAlone) ∧
    (∀ (w : World) (s : Nat) (props : RetryProps) (w' : World),
      s < w.states.length → props.errors = none →
      State._addRetry w s props = .ok w' →
      (getState w' s).retries = (getState w s).retries ++
        [{ props with errors := some [Errors.ALL] }]) ∧
    (∀ (fuel : Nat) (w : World) (s handler : Nat) (props : CatchProps) (w' : World),
      s < w.states.length → props.errors = none →
      State._addCatch fuel w s handler props = .ok w' →
      (getState w' s).catches = (getState w s).catches ++
        [{ next := handler, props := { props with errors := some [Errors.ALL] } }]) := by
  refine ⟨?_, ?_, ?_, ?_, ?_⟩
  · intro errs hmem hlen
    simp [validateErrors, hmem, hlen]
  · intro w s props errs hperr hmem hlen
    simp [State._addRetry, validateErrors, hperr, hmem, hlen]
  · intro fuel w s handler props errs hperr hmem hlen
    simp [State._addCatch, validateErrors, hperr, hmem, hlen]
  · intro w s props w' hs hperr h
    simp only [State._addRetry, validateErrors, hperr] at h
    cases h
    simp [getState_updState_self _ _ _ hs, hperr]
  · intro fuel w s handler props w' hs hperr h
    simp only [State._addCatch] at h
    split at h
    · cases h
    · have hc2 : (getState (addIncoming (updState w s fun st =>
          { st with catches := st.catches ++
              [{ next := handler, props := { props with errors := some (props.errors.getD [Errors.ALL]) } }] })
          handler s) s).catches
          = (getState w s).catches ++
              [{ next := handler, props := { props with errors := some (props.errors.getD [Errors.ALL]) } }] := by
        rw [addIncoming_catches, getState_updState_self _ _ _ hs]
      have pw : Preserves (addIncoming (updState w s fun st =>
          { st with catches := st.catches ++
              [{ next := handler, props := { props with errors := some (props.errors.getD [Errors.ALL]) } }] })
          handler s) w' := by
        split at h
        · exact bind_preserves fuel h
        · cases h
          exact Preserves.refl _
      rw [pw.catches_eq s, hc2, hperr]
      simp

/-- A one-state world for the C7 witness. -/
def c7World : World := { states := [mkState "t"], graphs := [] }

/-- A retry declaration with an omitted matcher list. -/
def c7Retry : RetryProps :=
  { errors := none, interval := none, maxAttempts := none,
    backoffRate := none, maxDelay := none, jitterStrategy := none }

/-- A catch declaration with an omitted matcher list. -/
def c7Catch : CatchProps :=
  { errors := none, resultPath := none, outputs := none, assign := none }

/-- A one-state world whose state is already bound to graph `0`. -/
def c7BoundWorld : World :=
  { states := [{ mkState "t" with containingGraph := some 0 }],
    graphs := [{ states := [0], superGraph := none }] }

/-- Witness for C7 at concrete declarations, on an unbound and on an
already-bound state. -/
theorem c7_wildcard_exclusivity_witness :
    validateErrors (some [Errors.ALL, "X"]) = .error .wildcardNotAlone ∧
    State._addRetry c7World 0 { c7Retry with errors := some [Errors.ALL, "X"] }
      = .error .wildcardNotAlone ∧
    State._addCatch 1 c7World 0 0 { c7Catch with errors := some [Errors.ALL, "X"] }
      = .error .wildcardNotAlone ∧
    (∀ w' : World, State._addRetry c7World 0 c7Retry = .ok w' →
      (getState w' 0).retries = (getState c7World 0).retries ++
        [{ c7Retry with errors := some [Errors.ALL] }]) ∧
    (∀ w' : World, State._addCatch 1 c7World 0 0 c7Catch = .ok w' →
      (getState w' 0).catches = (getState c7World 0).catches ++
        [{ next := 0, props := { c7Catch with errors := some [Errors.ALL] } }]) ∧
    (∀ w' : World, State._addCatch 1 c7BoundWorld 0 0 c7Catch = .ok w' →
      (getState w' 0).catches = (getState c7BoundWorld 0).catches ++
        [{ next := 0, props := { c7Catch with errors := some [Errors.ALL] } }]) :=
  ⟨c7_wildcard_exclusivity.1 [Errors.ALL, "X"] (by decide) (by decide),
   c7_wildcard_exclusivity.2.1 c7World 0 _ [Errors.ALL, "X"] rfl (by decide) (by decide),
   c7_wildcard_exclusivity.2.2.1 1 c7World 0 0 _ [Errors.ALL, "X"] rfl (by decide) (by decide),
   fun w' h => c7_wildcard_exclusivity.2.2.2.1 c7World 0 c7Retry w' (by decide) rfl h,
   fun w' h => c7_wildcard_exclusivity.2.2.2.2 1 c7World 0 0 c7Catch w' (by decide) rfl h,
   fun w' h => c7_wildcard_exclusivity.2.2.2.2 1 c7BoundWorld 0 0 c7Catch w' (by decide) rfl h⟩

/-- C8: `renderJsonPath` errors exactly on a defined, resolved path that
does not start with the root selector `'$'`; `"$.foo"` and unresolved
tokens pass through unchanged; an undefined path yields an absent field. -/
theorem c8_render_json_path :
    renderJsonPath (some "foo") = .error (.jsonPathNoDollar "foo") ∧
    renderJsonPath (some "$.foo") = .ok (some "$.foo") ∧
    renderJsonPath (some "$\x7bToken[TOKEN.1]\x7d") = .ok (some "$\x7bToken[TOKEN.1]\x7d") ∧
    renderJsonPath none = .ok none ∧
    (∀ s : String, renderJsonPath (some s) = .error (.jsonPathNoDollar s) ↔
      (Token.isUnresolved s = false ∧ strStartsWith s "$" = false)) := by
  refine ⟨by decide, by decide, by decide, rfl, ?_⟩
  intro s
  by_cases h1 : Token.isUnresolved s <;> by_cases h2 : strStartsWith s "$" <;>
    simp [renderJsonPath, h1, h2]

/-- C10: `compareErrors` returns `1` whenever its first argument's
matcher list contains the wildcard — even when the second one does too —
and `0` whenever neither does; hence for two wildcard rules (which the
declaration API permits, the exclusivity check being per rule)
`compareErrors a b = compareErrors b a = 1` and the comparator fixes no
relative order between them. -/
theorem c10_compare_errors_not_antisymmetric :
    (∀ a b : Option (List String), Errors.ALL ∈ a.getD [] →
      compareErrors a b = 1) ∧
    (∀ a b : Option (List String), Errors.ALL ∉ a.getD [] → Errors.ALL ∉ b.getD [] →
      compareErrors a b = 0) ∧
    compareErrors (some [Errors.ALL]) (some [Errors.ALL]) = 1 ∧
    validateErrors (some [Errors.ALL]) = .ok () ∧
    (∀ (w w' : World) (s : Nat) (props : RetryProps),
      props.errors = some [Errors.ALL] →
      State._addRetry w s props = .ok w' →
      ∃ w'' : World, State._addRetry w' s props = .ok w'') := by
  refine ⟨?_, ?_, by decide, by decide, ?_⟩
  · intro a b ha
    simp [compareErrors, ha]
  · intro a b ha hb
    simp [compareErrors, ha, hb]
  · intro w w' s props hperr h
    simp only [State._addRetry, validateErrors, hperr] at h ⊢
    simp

/-- A one-state world after one wildcard retry rule. -/
def c10World1 : World :=
  { states := [{ mkState "t" with retries := [{ c7Retry with errors := some [Errors.ALL] }] }],
    graphs := [] }

/-- Witness for C10 at two concrete wildcard matcher sets and two
concrete wildcard retry declarations on the same state. -/
theorem c10_compare_errors_not_antisymmetric_witness :
    compareErrors (some [Errors.ALL]) none = 1 ∧
    compareErrors none (some ["X"]) = 0 ∧
    (∃ w'' : World, State._addRetry c10World1 0 { c7Retry with errors := some [Errors.ALL] }
      = .ok w'') :=
  ⟨c10_compare_errors_not_antisymmetric.1 (some [Errors.ALL]) none (by decide),
   c10_compare_errors_not_antisymmetric.2.1 none (some ["X"]) (by decide) (by decide),
   c10_compare_errors_not_antisymmetric.2.2.2.2 c7World c10World1 0
     { c7Retry with errors := some [Errors.ALL] } rfl (by decide)⟩

/-- Whether a matcher set contains the wildcard matcher (the test
`compareErrors` and the ordering claims are about). -/
def hasWildcard (e : Option (List String)) : Bool :=
  (e.getD []).contains Errors.ALL

/-- `compareErrors` restated through `hasWildcard`. -/
theorem compareErrors_eq (a b : Option (List String)) :
    compareErrors a b = if hasWildcard a then 1 else if hasWildcard b then -1 else 0 := rfl

/-- An element that must precede everything is inserted at the front. -/
theorem sortInsert_of_head (cmp : α → α → Int) (x : α) (l : List α)
    (h : ∀ y, cmp x y ≤ 0) : sortInsert cmp x l = x :: l := by
  cases l with
  | nil => rfl
  | cons y ys => simp [sortInsert, h y]

/-- An element that must follow everything is inserted at the end. -/
theorem sortInsert_of_last (cmp : α → α → Int) (x : α) (l : List α)
    (h : ∀ y, ¬ cmp x y ≤ 0) : sortInsert cmp x l = l ++ [x] := by
  induction l with
  | nil => rfl
  | cons y ys ih => simp [sortInsert, h y, ih]

/-- Characterization of the stable sort under a wildcard-last comparator
(the shape of `compareErrors`): the non-wildcard elements come first in
declaration order, followed by the wildcard elements. -/
theorem sortCmp_wildcard_split (p : α → Bool) (cmp : α → α → Int)
    (hcmp : ∀ x y, cmp x y = if p x then 1 else if p y then -1 else 0) :
    ∀ l : List α, sortCmp cmp l =
      l.filter (fun x => !p x) ++ (l.filter p).reverse := by
  intro l
  induction l with
  | nil => rfl
  | cons x xs ih =>
    by_cases hx : p x
    · rw [sortCmp, ih, sortInsert_of_last cmp x _ (fun y => by simp [hcmp, hx])]
      simp [List.filter_cons, hx, List.append_assoc]
    · rw [sortCmp, ih, sortInsert_of_head cmp x _ ?hle]
      · simp [List.filter_cons, hx]
      · intro y
        by_cases hy : p y <;> simp [hcmp, hx, hy]

/-- A list of non-wildcard elements followed by wildcard elements has
every wildcard element after every non-wildcard one. -/
theorem pairwise_wild_last (wf : β → Bool) :
    ∀ A B : List β, (∀ x ∈ A, wf x = false) → (∀ x ∈ B, wf x = true) →
    (A ++ B).Pairwise (fun x y => wf x = true → wf y = true) := by
  intro A B hA hB
  induction A with
  | nil =>
    simp only [List.nil_append]
    exact List.pairwise_of_forall_mem_list (fun a _ b hb _ => hB b hb)
  | cons a as iha =>
    refine List.Pairwise.cons ?_ (iha (fun x hx => hA x (List.mem_cons_of_mem a hx)))
    intro y _ hwa
    rw [hA a (List.mem_cons_self a as)] at hwa
    cases hwa

/-- A successful `mapExcept` relates input and output pointwise. -/
theorem mapExcept_forall₂ (f : α → Except SfnError β) :
    ∀ {l : List α} {out : List β}, mapExcept f l = .ok out →
    List.Forall₂ (fun x y => f x = .ok y) l out := by
  intro l
  induction l with
  | nil =>
    intro out h
    cases h
    exact List.Forall₂.nil
  | cons x xs ih =>
    intro out h
    unfold mapExcept at h
    split at h
    · cases h
    · rename_i y hy
      split at h
      · cases h
      · rename_i ys hys
        cases h
        exact List.Forall₂.cons hy (ih hys)

/-- A pure mapping step makes `mapExcept` a total `map`. -/
theorem mapExcept_pure (f : α → β) :
    ∀ l : List α, mapExcept (fun x => (.ok (f x) : Except SfnError β)) l = .ok (l.map f) := by
  intro l
  induction l with
  | nil => rfl
  | cons x xs ih => simp [mapExcept, ih]

/-- `Forall₂` over a concatenated input splits the output. -/
theorem forall₂_append_split {R : α → β → Prop} :
    ∀ {A B : List α} {out : List β}, List.Forall₂ R (A ++ B) out →
    ∃ out1 out2, out = out1 ++ out2 ∧ List.Forall₂ R A out1 ∧ List.Forall₂ R B out2 := by
  intro A
  induction A with
  | nil =>
    intro B out h
    exact ⟨[], out, rfl, List.Forall₂.nil, h⟩
  | cons a as ih =>
    intro B out h
    cases h with
    | cons hr hrest =>
      obtain ⟨out1, out2, rfl, h1, h2⟩ := ih hrest
      exact ⟨_ :: out1, out2, rfl, List.Forall₂.cons hr h1, h2⟩

/-- A rendered catch fragment carries exactly the declared matcher set. -/
theorem renderCatch_errorEquals {w : World} {c : CatchTransition}
    {ql : QueryLanguage} {y : RenderedCatch}
    (h : renderCatch w c ql = .ok y) : y.ErrorEquals = c.props.errors := by
  unfold renderCatch at h
  split at h
  · cases h
  · split at h <;> (cases h; rfl)

/-- Every output element of a pointwise relation has a related input. -/
theorem forall₂_mem_right {R : α → β → Prop} :
    ∀ {l1 : List α} {l2 : List β}, List.Forall₂ R l1 l2 → ∀ y ∈ l2, ∃ x ∈ l1, R x y := by
  intro l1 l2 h
  induction h with
  | nil => intro y hy; cases hy
  | cons hr hrest ih =>
    intro y hy
    rcases List.mem_cons.mp hy with rfl | hy2
    · exact ⟨_, List.mem_cons_self _ _, hr⟩
    · obtain ⟨x, hx, hxr⟩ := ih y hy2
      exact ⟨x, List.mem_cons_of_mem _ hx, hxr⟩

/-- C4: in every `renderRetryCatch` fragment, each rendered retry rule and
catch handler whose matcher set contains the wildcard comes after every
one whose matcher set does not, and the non-wildcard entries appear in
their original declaration order (the rendered non-wildcard retries are
exactly the non-wildcard declarations rendered in order, and the rendered
non-wildcard catches correspond one-to-one, in order, to the non-wildcard
catch declarations). -/
theorem c4_wildcard_ordered_last (w : World) (s : Nat) (q : Option QueryLanguage)
    (frag : RetryCatchFragment) (h : renderRetryCatch w s q = .ok frag) :
    ((frag.Retry.getD []).Pairwise (fun x y =>
        hasWildcard x.ErrorEquals = true → hasWildcard y.ErrorEquals = true) ∧
      (frag.Retry.getD []).filter (fun x => !hasWildcard x.ErrorEquals)
        = ((getState w s).retries.filter (fun r => !hasWildcard r.errors)).map renderRetry) ∧
    ((frag.Catch.getD []).Pairwise (fun x y =>
        hasWildcard x.ErrorEquals = true → hasWildcard y.ErrorEquals = true) ∧
      List.Forall₂
        (fun c y => renderCatch w c (_getActualQueryLanguage q (getState w s).queryLanguage) = .ok y)
        ((getState w s).catches.filter (fun c => !hasWildcard c.props.errors))
        ((frag.Catch.getD []).filter (fun y => !hasWildcard y.ErrorEquals))) := by
  simp only [renderRetryCatch] at h
  split at h
  · cases h
  · rename_i retry hR
    split at h
    · cases h
    · rename_i cat hC
      cases h
      constructor
      · -- the retry list
        simp only [renderList] at hR
        split at hR
        · rename_i hemp
          cases hR
          have hrs : (getState w s).retries = [] := List.isEmpty_iff.mp hemp
          exact ⟨List.Pairwise.nil, by simp [hrs]⟩
        · rw [mapExcept_pure renderRetry] at hR
          simp only [Except.map] at hR
          cases hR
          have hsplit := sortCmp_wildcard_split (fun r : RetryProps => hasWildcard r.errors)
            (fun a b => compareErrors a.errors b.errors)
            (fun x y => compareErrors_eq x.errors y.errors) (getState w s).retries
          simp only [Option.getD_some, hsplit, List.map_append]
          constructor
          · apply pairwise_wild_last
            · intro x hx
              obtain ⟨r, hr, rfl⟩ := List.mem_map.mp hx
              have hnr := (List.mem_filter.mp hr).2
              simpa using hnr
            · intro x hx
              obtain ⟨r, hr, rfl⟩ := List.mem_map.mp hx
              have hwr := (List.mem_filter.mp (List.mem_reverse.mp hr)).2
              exact hwr
          · rw [List.filter_append]
            have h1 : (((getState w s).retries.filter (fun r => !hasWildcard r.errors)).map
                renderRetry).filter (fun x => !hasWildcard x.ErrorEquals)
                = ((getState w s).retries.filter (fun r => !hasWildcard r.errors)).map renderRetry := by
              apply List.filter_eq_self.mpr
              intro a ha
              obtain ⟨r, hr, rfl⟩ := List.mem_map.mp ha
              exact (List.mem_filter.mp hr).2
            have h2 : ((((getState w s).retries.filter
                (fun r : RetryProps => hasWildcard r.errors)).reverse).map
                renderRetry).filter (fun x => !hasWildcard x.ErrorEquals) = [] := by
              apply List.filter_eq_nil_iff.mpr
              intro a ha
              obtain ⟨r, hr, rfl⟩ := List.mem_map.mp ha
              have hwr := (List.mem_filter.mp (List.mem_reverse.mp hr)).2
              simpa using hwr
            rw [h1, h2, List.append_nil]
      · -- the catch list
        simp only [renderList] at hC
        split at hC
        · rename_i hemp
          cases hC
          have hcs : (getState w s).catches = [] := List.isEmpty_iff.mp hemp
          exact ⟨List.Pairwise.nil, by simp [hcs]⟩
        · cases hm : mapExcept (fun x => renderCatch w x
              (_getActualQueryLanguage q (getState w s).queryLanguage))
              (sortCmp (fun a b => compareErrors a.props.errors b.props.errors)
                (getState w s).catches) with
          | error e =>
            rw [hm] at hC
            simp [Except.map] at hC
          | ok out =>
            rw [hm] at hC
            simp only [Except.map] at hC
            cases hC
            have F := mapExcept_forall₂ _ hm
            have hsplit := sortCmp_wildcard_split (fun c : CatchTransition => hasWildcard c.props.errors)
              (fun a b => compareErrors a.props.errors b.props.errors)
              (fun x y => compareErrors_eq x.props.errors y.props.errors) (getState w s).catches
            rw [hsplit] at F
            obtain ⟨out1, out2, rfl, F1, F2⟩ := forall₂_append_split F
            have hOut1 : ∀ y ∈ out1, hasWildcard y.ErrorEquals = false := by
              intro y hy
              obtain ⟨c, hc, hcy⟩ := forall₂_mem_right F1 y hy
              rw [renderCatch_errorEquals hcy]
              have := (List.mem_filter.mp hc).2
              simpa using this
            have hOut2 : ∀ y ∈ out2, hasWildcard y.ErrorEquals = true := by
              intro y hy
              obtain ⟨c, hc, hcy⟩ := forall₂_mem_right F2 y hy
              rw [renderCatch_errorEquals hcy]
              exact (List.mem_filter.mp (List.mem_reverse.mp hc)).2
            constructor
            · exact pairwise_wild_last _ out1 out2 hOut1 hOut2
            · simp only [Option.getD_some]
              rw [List.filter_append]
              have h1 : out1.filter (fun y => !hasWildcard y.ErrorEquals) = out1 :=
                List.filter_eq_self.mpr (fun y hy => by simp [hOut1 y hy])
              have h2 : out2.filter (fun y => !hasWildcard y.ErrorEquals) = [] :=
                List.filter_eq_nil_iff.mpr (fun y hy => by simp [hOut2 y hy])
              rw [h1, h2, List.append_nil]
              exact F1

/-- A state declaring a wildcard retry rule and a wildcard catch handler
FIRST, each followed by a non-wildcard one. -/
def c4World : World :=
  { states := [{ mkState "t" with
      retries := [{ c7Retry with errors := some [Errors.ALL] },
                  { c7Retry with errors := some ["X"] }],
      catches := [{ next := 0, props := { c7Catch with errors := some [Errors.ALL] } },
                  { next := 0, props := { c7Catch with errors := some ["X"] } }] }],
    graphs := [] }

/-- The fragment `c4World` renders to: the wildcard entries moved last. -/
def c4Frag : RetryCatchFragment :=
  { Retry := some
      [{ ErrorEquals := some ["X"], IntervalSeconds := none, MaxAttempts := none,
         BackoffRate := none, MaxDelaySeconds := none, JitterStrategy := none },
       { ErrorEquals := some [Errors.ALL], IntervalSeconds := none, MaxAttempts := none,
         BackoffRate := none, MaxDelaySeconds := none, JitterStrategy := none }],
    Catch := some
      [{ Output := none, Assign := none, ErrorEquals := some ["X"],
         ResultPath := none, Next := "t" },
       { Output := none, Assign := none, ErrorEquals := some [Errors.ALL],
         ResultPath := none, Next := "t" }] }

/-- Witness for C4 at `c4World`: the wildcard rule declared first still
renders last. -/
theorem c4_wildcard_ordered_last_witness :
    ((c4Frag.Retry.getD []).Pairwise (fun x y =>
        hasWildcard x.ErrorEquals = true → hasWildcard y.ErrorEquals = true) ∧
      (c4Frag.Retry.getD []).filter (fun x => !hasWildcard x.ErrorEquals)
        = ((getState c4World 0).retries.filter (fun r => !hasWildcard r.errors)).map renderRetry) ∧
    ((c4Frag.Catch.getD []).Pairwise (fun x y =>
        hasWildcard x.ErrorEquals = true → hasWildcard y.ErrorEquals = true) ∧
      List.Forall₂
        (fun c y => renderCatch c4World c
            (_getActualQueryLanguage none (getState c4World 0).queryLanguage) = .ok y)
        ((getState c4World 0).catches.filter (fun c => !hasWildcard c.props.errors))
        ((c4Frag.Catch.getD []).filter (fun y => !hasWildcard y.ErrorEquals))) :=
  c4_wildcard_ordered_last c4World 0 none c4Frag (by decide)

/-- C9: `renderList` returns an absent field (not an empty list) on an
empty input, so a state with an empty retry (resp. catch) list renders
with no `Retry` (resp. `Catch`) field at all. -/
theorem c9_empty_renders_absent :
    (∀ (α β : Type) (f : α → Except SfnError β) (c : Option (α → α → Int)),
      renderList ([] : List α) f c = .ok none) ∧
    (∀ (w : World) (s : Nat) (q : Option QueryLanguage) (frag : RetryCatchFragment),
      renderRetryCatch w s q = .ok frag →
      ((getState w s).retries = [] → frag.Retry = none) ∧
      ((getState w s).catches = [] → frag.Catch = none)) := by
  constructor
  · intro α β f c
    rfl
  · intro w s q frag h
    simp only [renderRetryCatch] at h
    split at h
    · cases h
    · rename_i retry hR
      split at h
      · cases h
      · rename_i cat hC
        cases h
        constructor
        · intro hre
          rw [hre] at hR
          simp only [renderList, List.isEmpty_nil, if_true] at hR
          cases hR
          rfl
        · intro hce
          rw [hce] at hC
          simp only [renderList, List.isEmpty_nil, if_true] at hC
          cases hC
          rfl

/-- A state with no retry and no catch declarations. -/
def c9World : World := { states := [mkState "t"], graphs := [] }

/-- Witness for C9 at `c9World`: both fields are absent. -/
theorem c9_empty_renders_absent_witness :
    renderList ([] : List RetryProps) (fun x => .ok (renderRetry x)) none = .ok none ∧
    ({ Retry := none, Catch := none } : RetryCatchFragment).Retry = none ∧
    ({ Retry := none, Catch := none } : RetryCatchFragment).Catch = none :=
  ⟨c9_empty_renders_absent.1 RetryProps RenderedRetry (fun x => .ok (renderRetry x)) none,
   (c9_empty_renders_absent.2 c9World 0 none { Retry := none, Catch := none } (by decide)).1 rfl,
   (c9_empty_renders_absent.2 c9World 0 none { Retry := none, Catch := none } (by decide)).2 rfl⟩

/-- A dangling index dereferences to the inert state. -/
theorem getState_oob (w : World) (s : Nat) (h : w.states.length ≤ s) :
    getState w s = mkState "" := by
  simp [getState, List.getD, List.getElem?_eq_none h]

/-- A dangling index has no outgoing transitions. -/
theorem outgoing_oob (w : World) (s : Nat) (o : FindStateOptions)
    (h : w.states.length ≤ s) : outgoingTransitions w s o = [] := by
  rw [outgoingTransitions, getState_oob w s h]
  cases o with
  | mk b => cases b <;> rfl

/-- Termination measure step for visiting an unvisited state: either the
state is a valid index (the unvisited part of the state space shrinks) or
it is dangling and has no outgoing transitions (the queue shrinks). -/
theorem reachable_measure_push (w : World) (o : FindStateOptions) (visited : Finset Nat)
    (st : Nat) (rest : List Nat) (h : st ∉ visited) :
    Prod.Lex (fun a b => a < b) (fun a b => a < b)
      ((Finset.range w.states.length \ insert st visited).card,
        (rest ++ outgoingTransitions w st o).length)
      ((Finset.range w.states.length \ visited).card, (st :: rest).length) := by
  by_cases hs : st < w.states.length
  · apply Prod.Lex.left
    rw [Finset.sdiff_insert]
    exact Finset.card_erase_lt_of_mem (Finset.mem_sdiff.mpr ⟨Finset.mem_range.mpr hs, h⟩)
  · have heq : Finset.range w.states.length \ insert st visited
        = Finset.range w.states.length \ visited := by
      ext a
      simp only [Finset.mem_sdiff, Finset.mem_insert, Finset.mem_range]
      constructor
      · rintro ⟨h1, h2⟩
        exact ⟨h1, fun hv => h2 (Or.inr hv)⟩
      · rintro ⟨h1, h2⟩
        refine ⟨h1, ?_⟩
        rintro (rfl | hv)
        · exact hs h1
        · exact h2 hv
    rw [heq, outgoing_oob w st o (by omega)]
    apply Prod.Lex.right
    simp

/-- Termination measure step for collecting a terminal state. -/
theorem reachable_measure_terminal (w : World) (visited : Finset Nat)
    (st : Nat) (rest : List Nat) (h : st ∉ visited) :
    Prod.Lex (fun a b => a < b) (fun a b => a < b)
      ((Finset.range w.states.length \ insert st visited).card, rest.length)
      ((Finset.range w.states.length \ visited).card, (st :: rest).length) := by
  by_cases hs : st < w.states.length
  · apply Prod.Lex.left
    rw [Finset.sdiff_insert]
    exact Finset.card_erase_lt_of_mem (Finset.mem_sdiff.mpr ⟨Finset.mem_range.mpr hs, h⟩)
  · have heq : Finset.range w.states.length \ insert st visited
        = Finset.range w.states.length \ visited := by
      ext a
      simp only [Finset.mem_sdiff, Finset.mem_insert, Finset.mem_range]
      constructor
      · rintro ⟨h1, h2⟩
        exact ⟨h1, fun hv => h2 (Or.inr hv)⟩
      · rintro ⟨h1, h2⟩
        refine ⟨h1, ?_⟩
        rintro (rfl | hv)
        · exact hs h1
        · exact h2 hv
    rw [heq]
    apply Prod.Lex.right
    simp

/-- The loop of `findReachableStates`: breadth-first over the queue with
a visited set; a visited state is skipped, an unvisited one is recorded
and its outgoing transitions are enqueued. -/
def findReachableStatesAux (w : World) (options : FindStateOptions)
    (visited : Finset Nat) (queue : List Nat) (ret : List Nat) : List Nat :=
  match queue with
  | [] => ret
  | state :: rest =>
    if state ∈ visited then
      findReachableStatesAux w options visited rest ret
    else
      findReachableStatesAux w options (insert state visited)
        (rest ++ outgoingTransitions w state options) (ret ++ [state])
termination_by ((Finset.range w.states.length \ visited).card, queue.length)
decreasing_by
  all_goals first
    | exact reachable_measure_push w options visited _ _ (by assumption)
    | (apply Prod.Lex.right; simp)

/-- `findReachableStates`: all states reachable through transitions from
the start state (not descending into sub-graphs). -/
def State.findReachableStates (w : World) (start : Nat) (options : FindStateOptions) : List Nat :=
  findReachableStatesAux w options ∅ [start] []

/-- The loop of `findReachableEndStates`: same traversal, collecting only
the states with no outgoing transitions under the edge-selection rule. -/
def findReachableEndStatesAux (w : World) (options : FindStateOptions)
    (visited : Finset Nat) (queue : List Nat) (ret : List Nat) : List Nat :=
  match queue with
  | [] => ret
  | state :: rest =>
    if state ∈ visited then
      findReachableEndStatesAux w options visited rest ret
    else
      if 0 < (outgoingTransitions w state options).length then
        findReachableEndStatesAux w options (insert state visited)
          (rest ++ outgoingTransitions w state options) ret
      else
        findReachableEndStatesAux w options (insert state visited) rest (ret ++ [state])
termination_by ((Finset.range w.states.length \ visited).card, queue.length)
decreasing_by
  all_goals first
    | exact reachable_measure_push w options visited _ _ (by assumption)
    | exact reachable_measure_terminal w visited _ _ (by assumption)
    | (apply Prod.Lex.right; simp)

/-- `findReachableEndStates`: the reachable states with no outgoing
transitions under the same edge-selection rule. -/
def State.findReachableEndStates (w : World) (start : Nat) (options : FindStateOptions) : List Nat :=
  findReachableEndStatesAux w options ∅ [start] []

/-- Reachability only depends on the outgoing-transition map and on the
number of states. -/
theorem findReachableStatesAux_congr (w₁ w₂ : World) (o : FindStateOptions)
    (hout : ∀ s, outgoingTransitions w₂ s o = outgoingTransitions w₁ s o) :
    ∀ (visited : Finset Nat) (queue ret : List Nat),
      findReachableStatesAux w₂ o visited queue ret
        = findReachableStatesAux w₁ o visited queue ret := by
  intro visited queue ret
  induction visited, queue, ret using findReachableStatesAux.induct w₁ o with
  | case1 visited ret => simp [findReachableStatesAux]
  | case2 visited ret st rest hv ih => simp [findReachableStatesAux, hv, ih]
  | case3 visited ret st rest hv ih => simp [findReachableStatesAux, hv, hout st, ih]

/-- Same for the end-state traversal. -/
theorem findReachableEndStatesAux_congr (w₁ w₂ : World) (o : FindStateOptions)
    (hout : ∀ s, outgoingTransitions w₂ s o = outgoingTransitions w₁ s o) :
    ∀ (visited : Finset Nat) (queue ret : List Nat),
      findReachableEndStatesAux w₂ o visited queue ret
        = findReachableEndStatesAux w₁ o visited queue ret := by
  intro visited queue ret
  induction visited, queue, ret using findReachableEndStatesAux.induct w₁ o with
  | case1 visited ret => simp [findReachableEndStatesAux]
  | case2 visited ret st rest hv ih => simp [findReachableEndStatesAux, hv, ih]
  | case3 visited ret st rest hv hlen2 ih =>
    simp [findReachableEndStatesAux, hv, hout st, hlen2, ih]
  | case4 visited ret st rest hv hlen2 ih =>
    simp [findReachableEndStatesAux, hv, hout st, hlen2, ih]

/-- A world with every catch list removed. -/
def eraseCatches (w : World) : World :=
  { w with states := w.states.map (fun st => { st with catches := [] }) }

/-- A world with every branch/iteration/processor sub-graph removed. -/
def eraseSubgraphs (w : World) : World :=
  { w with states := w.states.map (fun st =>
      { st with branches := [], iteration := none, processor := none }) }

theorem getState_eraseCatches (w : World) (s : Nat) :
    getState (eraseCatches w) s = { getState w s with catches := [] } := by
  by_cases hs : s < w.states.length
  · simp [getState, eraseCatches, List.getD, List.getElem?_map, List.getElem?_eq_getElem hs]
  · rw [getState_oob _ _ (by simpa [eraseCatches] using (by omega : w.states.length ≤ s)),
      getState_oob _ _ (by omega)]
    rfl

theorem getState_eraseSubgraphs (w : World) (s : Nat) :
    getState (eraseSubgraphs w) s
      = { getState w s with branches := [], iteration := none, processor := none } := by
  by_cases hs : s < w.states.length
  · simp [getState, eraseSubgraphs, List.getD, List.getElem?_map, List.getElem?_eq_getElem hs]
  · rw [getState_oob _ _ (by simpa [eraseSubgraphs] using (by omega : w.states.length ≤ s)),
      getState_oob _ _ (by omega)]
    rfl

/-- Without error handlers, the outgoing transitions ignore catches. -/
theorem outgoing_eraseCatches (w : World) (s : Nat) :
    outgoingTransitions (eraseCatches w) s { includeErrorHandlers := false }
      = outgoingTransitions w s { includeErrorHandlers := false } := by
  simp [outgoingTransitions, getState_eraseCatches]

/-- The outgoing transitions never read the sub-graph fields. -/
theorem outgoing_eraseSubgraphs (w : World) (s : Nat) (o : FindStateOptions) :
    outgoingTransitions (eraseSubgraphs w) s o = outgoingTransitions w s o := by
  simp [outgoingTransitions, getState_eraseSubgraphs]

/-- The two-state cycle `a -> b -> a`. -/
def cycleWorld : World :=
  { states := [{ mkState "a" with next := some 1 }, { mkState "b" with next := some 0 }],
    graphs := [] }

/-- C3: both traversals terminate (they are total functions defined by a
well-founded measure) and on the two-state cycle `a -> b -> a` the
reachable set is exactly `{a, b}` and the end-state set is empty;
catch-handler edges are followed only when `includeErrorHandlers` is on
(dropping every catch list does not change the traversal when it is off);
and branch/iteration/processor sub-graphs are never entered (dropping
them never changes either traversal). -/
theorem c3_reachability :
    State.findReachableStates cycleWorld 0 { includeErrorHandlers := false } = [0, 1] ∧
    State.findReachableStates cycleWorld 0 { includeErrorHandlers := true } = [0, 1] ∧
    State.findReachableEndStates cycleWorld 0 { includeErrorHandlers := false } = [] ∧
    (∀ (w : World) (s : Nat), outgoingTransitions w s { includeErrorHandlers := true }
      = outgoingTransitions w s { includeErrorHandlers := false }
        ++ (getState w s).catches.map (fun c => c.next)) ∧
    (∀ (w : World) (start : Nat),
      State.findReachableStates (eraseCatches w) start { includeErrorHandlers := false }
        = State.findReachableStates w start { includeErrorHandlers := false } ∧
      State.findReachableEndStates (eraseCatches w) start { includeErrorHandlers := false }
        = State.findReachableEndStates w start { includeErrorHandlers := false }) ∧
    (∀ (w : World) (start : Nat) (o : FindStateOptions),
      State.findReachableStates (eraseSubgraphs w) start o
        = State.findReachableStates w start o ∧
      State.findReachableEndStates (eraseSubgraphs w) start o
        = State.findReachableEndStates w start o) := by
  refine ⟨?_, ?_, ?_, ?_, ?_, ?_⟩
  · simp [State.findReachableStates, findReachableStatesAux, outgoingTransitions, getState,
      cycleWorld, mkState, List.getD]
  · simp [State.findReachableStates, findReachableStatesAux, outgoingTransitions, getState,
      cycleWorld, mkState, List.getD]
  · simp [State.findReachableEndStates, findReachableEndStatesAux, outgoingTransitions, getState,
      cycleWorld, mkState, List.getD]
  · intro w s
    simp [outgoingTransitions]
  · intro w start
    exact ⟨findReachableStatesAux_congr w (eraseCatches w) _
        (fun s => outgoing_eraseCatches w s) ∅ [start] [],
      findReachableEndStatesAux_congr w (eraseCatches w) _
        (fun s => outgoing_eraseCatches w s) ∅ [start] []⟩
  · intro w start o
    exact ⟨findReachableStatesAux_congr w (eraseSubgraphs w) o
        (fun s => outgoing_eraseSubgraphs w s o) ∅ [start] [],
      findReachableEndStatesAux_congr w (eraseSubgraphs w) o
        (fun s => outgoing_eraseSubgraphs w s o) ∅ [start] []⟩
